import Mathlib

/-!
Shallow embedding of the mcp-filesystem watcher core:
the gitignore matcher (internal/gitignore/gitignore.go), the recursive
file watcher (the watcher package) and the synchronizer that keeps the
registered-file table in step with the event stream (internal/server/server.go).

Paths are Linux paths: the separator is the slash character, so Go's
filepath.ToSlash is the identity and is not modelled explicitly.
Go's path helpers (filepath.Base, filepath.Clean, filepath.Rel) are
reproduced below as goBase, goClean and goRel, restricted to the
separator-only behaviour they have on Linux (no volume names).
-/

/-! ### String primitives (structural, so concrete inputs evaluate) -/

/-- Splits a character list on the slash character; mirrors
strings.Split with separator slash (and the component view used by
filepath's element loops): splitting the empty list yields one empty
component. -/
def splitOnSlash : List Char → List (List Char)
  | [] => [[]]
  | c :: rest =>
    if c = '/' then [] :: splitOnSlash rest
    else
      match splitOnSlash rest with
      | [] => [[c]]
      | h :: t => (c :: h) :: t

/-- Joins components with slashes (the inverse view used when Go
reassembles cleaned or relative paths). -/
def joinSlash : List String → String
  | [] => ""
  | [s] => s
  | s :: rest => s ++ "/" ++ joinSlash rest

/-- Character-list version of strings.HasPrefix. -/
def listIsPre : List Char → List Char → Bool
  | [], _ => true
  | _ :: _, [] => false
  | a :: as, b :: bs => a == b && listIsPre as bs

/-- strings.HasPrefix. -/
def strHasPre (s pre : String) : Bool := listIsPre pre.data s.data

/-- True when the path begins with the separator (rooted/absolute on Linux). -/
def rootedOf : List Char → Bool
  | '/' :: _ => true
  | _ => false

/-- Go filepath.Base on Linux: empty path gives ".", trailing slashes are
stripped, the last element is returned, and an all-slash path gives "/". -/
def goBase (path : String) : String :=
  if path = "" then "."
  else
    match ((path.data.reverse.dropWhile (fun c => c = '/')).takeWhile (fun c => c ≠ '/')).reverse with
    | [] => "/"
    | c :: rest => String.mk (c :: rest)

/-- Go filepath.Clean on Linux, via the standard component-stack pass:
empty and dot components are dropped, a dot-dot pops a normal component,
is dropped at the root, and is kept when the path is relative and there
is nothing left to pop. -/
def goClean (path : String) : String :=
  if path = "" then "."
  else
    let rooted := rootedOf path.data
    let comps := (splitOnSlash path.data).map (fun l => String.mk l)
    let stack := comps.foldl (fun st c =>
      if c = "" || c = "." then st
      else if c = ".." then
        match st with
        | [] => if rooted then [] else [".."]
        | top :: rest => if top = ".." then ".." :: top :: rest else rest
      else c :: st) ([] : List String)
    let comps2 := stack.reverse
    if rooted then "/" ++ joinSlash comps2
    else if comps2.isEmpty then "." else joinSlash comps2

/-- Nonempty components of a cleaned path (the element view of Go's
Rel comparison loop: both sides are cleaned, so the only empty raw
segment is the shared leading one of rooted paths). -/
def splitComps (s : String) : List String :=
  ((splitOnSlash s.data).map (fun l => String.mk l)).filter (fun c => decide (c ≠ ""))

/-- Strips the common component run from two component lists, returning
what remains of each; mirrors the first-difference loop of Go's Rel. -/
def dropCommon : List String → List String → List String × List String
  | a :: as, b :: bs => if a = b then dropCommon as bs else (a :: as, b :: bs)
  | as, bs => (as, bs)

/-- Go filepath.Rel on Linux. Returns none exactly where Go returns an
error: when one cleaned path is rooted and the other is not, or when the
first unmatched base component is dot-dot. -/
def goRel (basepath targpath : String) : Option String :=
  let base := goClean basepath
  let targ := goClean targpath
  if targ = base then some "."
  else
    let base1 := if base = "." then "" else base
    let baseSlashed := rootedOf base1.data
    let targSlashed := rootedOf targ.data
    if baseSlashed ≠ targSlashed then none
    else
      let p := dropCommon (splitComps base1) (splitComps targ)
      if p.1.head? = some ".." then none
      else if p.1.isEmpty then some (joinSlash p.2)
      else some (joinSlash (List.replicate p.1.length ".." ++ p.2))

/-! ### IgnoreMatcher (internal/gitignore/gitignore.go) -/

/-- The matcher state built by NewMatcher. The go-gitignore library is an
external dependency; its compiled MatchesPath predicate is modelled as an
opaque-to-the-claims boolean oracle over relative paths. -/
structure Matcher where
  workspacePath : String
  hasGitIgnore : Bool
  gitignoreMatches : String → Bool

/-- The default ignore list NewMatcher always installs. -/
def defaultIgnores : List String := [".git/", ".DS_Store", "node_modules/"]

/-- ShouldIgnore from gitignore.go: dot-base paths are ignored; if the
workspace-relative path cannot be computed the path is not ignored; else
the default patterns are tested with HasPrefix-or-equality; else the
gitignore oracle decides when a gitignore file was loaded. The none
branch of the head? match models the byte index Base(path)[0], which is
shown below to be in bounds for every input. -/
def Matcher.ShouldIgnore (m : Matcher) (path : String) : Bool :=
  match (goBase path).data.head? with
  | none => false
  | some c =>
    if c = '.' then true
    else
      match goRel m.workspacePath path with
      | none => false
      | some relPath =>
        if defaultIgnores.any (fun pat => strHasPre relPath pat || relPath == pat) then true
        else if m.hasGitIgnore then m.gitignoreMatches relPath
        else false

/-- ShouldIgnoreDir from gitignore.go: the workspace root is never
ignored; any other directory defers to ShouldIgnore. -/
def Matcher.ShouldIgnoreDir (m : Matcher) (path : String) : Bool :=
  if path = m.workspacePath then false
  else m.ShouldIgnore path

/-! ### Watcher core (the watcher package) -/

/-- Event type constants from the watcher package (EventCreate iota). -/
def EventCreate : Nat := 0

/-- EventModify constant. -/
def EventModify : Nat := 1

/-- EventDelete constant. -/
def EventDelete : Nat := 2

/-- A normalized file event as produced by the watcher. -/
structure FileEvent where
  Path : String
  EventType : Nat
deriving DecidableEq

/-- fsnotify op-flag bits (Create = 1 shifted by iota). -/
def fsnotifyCreate : Nat := 1

/-- fsnotify Write bit. -/
def fsnotifyWrite : Nat := 2

/-- fsnotify Remove bit. -/
def fsnotifyRemove : Nat := 4

/-- fsnotify Rename bit. -/
def fsnotifyRename : Nat := 8

/-- fsnotify Chmod bit (classified by no branch, so dropped). -/
def fsnotifyChmod : Nat := 16

/-- Watcher state: the workspace path, the matcher built for it, and the
watchedDirs map (modelled as a list with membership as the map read). -/
structure FileWatcher where
  workspacePath : String
  matcher : Matcher
  watchedDirs : List String

/-- Environment for the raw event source: whether watcher.Add succeeds
for a given directory. -/
structure WatchEnv where
  addWatchOk : String → Bool

/-- Calls made against the raw event source, recorded so that claims
about which watches are added or removed can be stated. -/
inductive WatchCall where
  | addWatch : String → WatchCall
  | removeWatch : String → WatchCall
deriving DecidableEq

/-- startWatching: returns nil at once when the directory is already in
watchedDirs; otherwise calls watcher.Add, propagating its error without
inserting, and inserts on success. The middle component is the returned
error (none = nil). -/
def startWatching (env : WatchEnv) (fw : FileWatcher) (path : String) :
    FileWatcher × Option Unit × List WatchCall :=
  if path ∈ fw.watchedDirs then (fw, none, [])
  else if env.addWatchOk path then
    ({ fw with watchedDirs := path :: fw.watchedDirs }, none, [WatchCall.addWatch path])
  else (fw, some (), [WatchCall.addWatch path])

/-- stopWatching: when the directory is present, best-effort Remove (its
error is discarded) and delete the map entry; otherwise nothing. -/
def stopWatching (fw : FileWatcher) (path : String) : FileWatcher × List WatchCall :=
  if path ∈ fw.watchedDirs then
    ({ fw with watchedDirs := fw.watchedDirs.filter (fun q => decide (q ≠ path)) },
      [WatchCall.removeWatch path])
  else (fw, [])

mutual

/-- A node of the observed directory tree: a plain file or a directory
with children, each carrying its base name. -/
inductive FsNode where
  | file : String → FsNode
  | dir : String → FsForest → FsNode

/-- A list of sibling tree nodes, visited in order by the walks. -/
inductive FsForest where
  | nil : FsForest
  | cons : FsNode → FsForest → FsForest

end

/-- The base name a walk uses to build a child's path. -/
def FsNode.name : FsNode → String
  | FsNode.file n => n
  | FsNode.dir n _ => n

/-- The path filepath.Walk hands to the callback for a child entry:
filepath.Join of the parent path and the entry name. -/
def childPath (parent name : String) : String := goClean (parent ++ "/" ++ name)

mutual

/-- The filepath.Walk of scanWorkspace at a single node: directories that
ShouldIgnoreDir prune their subtree; otherwise the directory is watched,
with a startWatching error aborting the whole walk (the Bool is false on
abort); files are untouched. -/
def scanNode (env : WatchEnv) (fw : FileWatcher) (path : String) (node : FsNode) :
    FileWatcher × List WatchCall × Bool :=
  match node with
  | FsNode.file _ => (fw, [], true)
  | FsNode.dir _ children =>
    if fw.matcher.ShouldIgnoreDir path then (fw, [], true)
    else
      let r := startWatching env fw path
      match r.2.1 with
      | some _ => (r.1, r.2.2, false)
      | none =>
        let w := scanForest env r.1 path children
        (w.1, r.2.2 ++ w.2.1, w.2.2)

/-- The sibling traversal of scanWorkspace's walk; stops at the first
aborting child. -/
def scanForest (env : WatchEnv) (fw : FileWatcher) (parent : String) (forest : FsForest) :
    FileWatcher × List WatchCall × Bool :=
  match forest with
  | FsForest.nil => (fw, [], true)
  | FsForest.cons child rest =>
    let r := scanNode env fw (childPath parent child.name) child
    if r.2.2 then
      let w := scanForest env r.1 parent rest
      (w.1, r.2.1 ++ w.2.1, w.2.2)
    else r

end

/-- scanWorkspace: walk the whole tree from the workspace root. -/
def scanWorkspace (env : WatchEnv) (fw : FileWatcher) (root : FsNode) :
    FileWatcher × List WatchCall × Bool :=
  scanNode env fw fw.workspacePath root

mutual

/-- One node of the sub-walk handleFsEvent runs after a directory create:
ignored directories prune, otherwise the directory is watched with the
error discarded and the walk descends; files are untouched; per-entry
errors never abort this walk. -/
def subWalkNode (env : WatchEnv) (fw : FileWatcher) (path : String) (node : FsNode) :
    FileWatcher × List WatchCall :=
  match node with
  | FsNode.file _ => (fw, [])
  | FsNode.dir _ children =>
    if fw.matcher.ShouldIgnoreDir path then (fw, [])
    else
      let r := startWatching env fw path
      let w := subWalkForest env r.1 path children
      (w.1, r.2.2 ++ w.2)

/-- Sibling traversal of the post-create sub-walk. -/
def subWalkForest (env : WatchEnv) (fw : FileWatcher) (parent : String) (forest : FsForest) :
    FileWatcher × List WatchCall :=
  match forest with
  | FsForest.nil => (fw, [])
  | FsForest.cons child rest =>
    let r := subWalkNode env fw (childPath parent child.name) child
    let w := subWalkForest env r.1 parent rest
    (w.1, r.2 ++ w.2)

end

/-- The sub-walk as started on the created directory itself: the walk
callback does nothing for the root entry (its guard requires a path
different from the event path) and then visits the children. -/
def subWalk (env : WatchEnv) (fw : FileWatcher) (rootPath : String) (node : FsNode) :
    FileWatcher × List WatchCall :=
  match node with
  | FsNode.file _ => (fw, [])
  | FsNode.dir _ children => subWalkForest env fw rootPath children

/-- handleFsEvent: drop ignored paths; for paths that stat as a directory
handle create (watch plus sub-walk; a startWatching error is logged and
stops the handler) and remove-or-rename (stopWatching); for everything
else classify by flag precedence Create, then Write, then
Remove-or-Rename into a FileEvent, dropping other flag combinations.
isDir is the stat outcome for the event path (false also when the path
no longer exists), and subtree is the tree rooted at the event path used
by the post-create sub-walk. Returns the new state, the emitted
FileEvents and the raw-source calls made. -/
def handleFsEvent (env : WatchEnv) (fw : FileWatcher) (name : String) (op : Nat)
    (isDir : Bool) (subtree : FsNode) : FileWatcher × List FileEvent × List WatchCall :=
  if fw.matcher.ShouldIgnore name then (fw, [], [])
  else if isDir then
    if op &&& fsnotifyCreate ≠ 0 then
      let r := startWatching env fw name
      match r.2.1 with
      | some _ => (r.1, [], r.2.2)
      | none =>
        let w := subWalk env r.1 name subtree
        (w.1, [], r.2.2 ++ w.2)
    else if op &&& (fsnotifyRemove ||| fsnotifyRename) ≠ 0 then
      let r := stopWatching fw name
      (r.1, [], r.2)
    else (fw, [], [])
  else
    if op &&& fsnotifyCreate ≠ 0 then (fw, [FileEvent.mk name EventCreate], [])
    else if op &&& fsnotifyWrite ≠ 0 then (fw, [FileEvent.mk name EventModify], [])
    else if op &&& (fsnotifyRemove ||| fsnotifyRename) ≠ 0 then
      (fw, [FileEvent.mk name EventDelete], [])
    else (fw, [], [])

/-! ### Synchronizer (internal/server/server.go) -/

/-- The synchronizer's registered-file table (the Go map, modelled as a
list with membership as the map read). -/
structure MCPServerState where
  registeredFiles : List String
deriving DecidableEq

/-- Environment for the external registry: whether RegisterFileResource
and DeregisterFileResource succeed for a given path. -/
structure RegEnv where
  registerOk : String → Bool
  deregisterOk : String → Bool

/-- Calls made against the external registry. -/
inductive RegCall where
  | register : String → RegCall
  | deregister : String → RegCall
deriving DecidableEq

/-- registerFile: nil at once when the path is already registered; else
call Register, propagating its error without marking, and mark the path
registered on success. -/
def registerFile (env : RegEnv) (s : MCPServerState) (path : String) :
    MCPServerState × Option Unit × List RegCall :=
  if path ∈ s.registeredFiles then (s, none, [])
  else if env.registerOk path then
    ({ registeredFiles := path :: s.registeredFiles }, none, [RegCall.register path])
  else (s, some (), [RegCall.register path])

/-- updateFile: nil with no registry call when the path is registered
(content is read lazily on demand); otherwise exactly registerFile. -/
def updateFile (env : RegEnv) (s : MCPServerState) (path : String) :
    MCPServerState × Option Unit × List RegCall :=
  if path ∈ s.registeredFiles then (s, none, [])
  else registerFile env s path

/-- unregisterFile: nil at once when the path is not registered; else
call Deregister, propagating its error without deleting, and delete the
table entry on success. -/
def unregisterFile (env : RegEnv) (s : MCPServerState) (path : String) :
    MCPServerState × Option Unit × List RegCall :=
  if path ∈ s.registeredFiles then
    if env.deregisterOk path then
      ({ registeredFiles := s.registeredFiles.filter (fun q => decide (q ≠ path)) },
        none, [RegCall.deregister path])
    else (s, some (), [RegCall.deregister path])
  else (s, none, [])

/-! ### Helper lemmas -/

/-- filepath.Base never returns the empty string: each branch yields a
dot, a slash, or a nonempty last element. -/
theorem goBase_ne_empty (path : String) : goBase path ≠ "" := by
  unfold goBase
  split
  · intro h
    exact absurd h (by decide)
  · split
    · intro h
      exact absurd h (by decide)
    · intro h
      have hd := congrArg String.data h
      simp at hd

/-- startWatching never changes the matcher. -/
theorem startWatching_matcher (env : WatchEnv) (fw : FileWatcher) (p : String) :
    (startWatching env fw p).1.matcher = fw.matcher := by
  unfold startWatching
  split
  · rfl
  · split <;> rfl

/-- Every addWatch call startWatching makes is for its own argument. -/
theorem startWatching_callsOwn (env : WatchEnv) (fw : FileWatcher) (p q : String) :
    WatchCall.addWatch q ∈ (startWatching env fw p).2.2 → q = p := by
  unfold startWatching
  split
  · simp
  · split <;> simp

/-- stopWatching never makes an addWatch call. -/
theorem stopWatching_noAdd (fw : FileWatcher) (p q : String) :
    WatchCall.addWatch q ∉ (stopWatching fw p).2 := by
  unfold stopWatching
  split <;> simp

/-- stopWatching never changes the matcher. -/
theorem stopWatching_matcher (fw : FileWatcher) (p : String) :
    (stopWatching fw p).1.matcher = fw.matcher := by
  unfold stopWatching
  split <;> rfl

/-- A directory that ShouldIgnoreDir lets through is either the
workspace root or not ignored by ShouldIgnore. -/
theorem shouldIgnoreDir_false_elim (m : Matcher) (q : String) :
    m.ShouldIgnoreDir q = false → q = m.workspacePath ∨ m.ShouldIgnore q = false := by
  unfold Matcher.ShouldIgnoreDir
  split
  · intro _
    left
    assumption
  · intro h
    right
    exact h

/-! ### Concrete fixtures for witnesses and counterexamples -/

/-- A matcher for workspace /w with no gitignore file. -/
def matcherW : Matcher := { workspacePath := "/w", hasGitIgnore := false, gitignoreMatches := fun _ => false }

/-- A raw event source whose AddWatch always succeeds. -/
def envAllOk : WatchEnv := { addWatchOk := fun _ => true }

/-- A raw event source whose AddWatch always fails. -/
def envNoneOk : WatchEnv := { addWatchOk := fun _ => false }

/-- A fresh watcher over /w with nothing watched yet. -/
def fwEmpty : FileWatcher := { workspacePath := "/w", matcher := matcherW, watchedDirs := [] }

/-- A watcher over /w already watching /w/d. -/
def fwWatched : FileWatcher := { workspacePath := "/w", matcher := matcherW, watchedDirs := ["/w/d"] }

/-- A registry whose calls always succeed. -/
def envRegAll : RegEnv := { registerOk := fun _ => true, deregisterOk := fun _ => true }

/-- A registry whose calls always fail. -/
def envRegFail : RegEnv := { registerOk := fun _ => false, deregisterOk := fun _ => false }

/-- An empty registered-file table. -/
def sEmpty : MCPServerState := { registeredFiles := [] }

/-- A table already holding /w/a.txt. -/
def sOneA : MCPServerState := { registeredFiles := ["/w/a.txt"] }

/-! ### Claim theorems -/

/-- C8: ShouldIgnoreDir applied to the workspace root path returns false
for every matcher configuration, since the root check precedes every
ignore rule. -/
theorem shouldIgnoreDir_root_false (m : Matcher) :
    m.ShouldIgnoreDir m.workspacePath = false := by
  simp [Matcher.ShouldIgnoreDir]

/-- C10: startWatching on an already-watched directory returns a nil
error, makes no AddWatch call and leaves the watched set unchanged; and
when AddWatch fails the watched set is unchanged, so an entry is gained
only when AddWatch succeeds. -/
theorem startWatching_idem_and_fail (env : WatchEnv) (fw : FileWatcher) (p : String) :
    (p ∈ fw.watchedDirs → startWatching env fw p = (fw, none, [])) ∧
    (env.addWatchOk p = false → (startWatching env fw p).1 = fw) := by
  constructor
  · intro h
    simp [startWatching, h]
  · intro h
    by_cases hm : p ∈ fw.watchedDirs <;> simp [startWatching, hm, h]

/-- Witness for C10 at /w/d: already watched leaves everything alone,
and a failing AddWatch leaves the fresh watcher unchanged. -/
theorem startWatching_idem_and_fail_witness :
    startWatching envAllOk fwWatched "/w/d" = (fwWatched, none, []) ∧
    (startWatching envNoneOk fwEmpty "/w/d").1 = fwEmpty :=
  ⟨(startWatching_idem_and_fail envAllOk fwWatched "/w/d").1 (by decide),
   (startWatching_idem_and_fail envNoneOk fwEmpty "/w/d").2 rfl⟩

/-- C7: a failing Register leaves the registered table unchanged, and a
failing Deregister leaves it unchanged: each operation mutates the table
only after the external call succeeds. -/
theorem failed_calls_leave_table (env : RegEnv) (s : MCPServerState) (p : String) :
    (env.registerOk p = false → (registerFile env s p).1 = s) ∧
    (env.deregisterOk p = false → (unregisterFile env s p).1 = s) := by
  constructor
  · intro h
    by_cases hm : p ∈ s.registeredFiles <;> simp [registerFile, hm, h]
  · intro h
    by_cases hm : p ∈ s.registeredFiles <;> simp [unregisterFile, hm, h]

/-- Witness for C7 with an always-failing registry over concrete tables. -/
theorem failed_calls_leave_table_witness :
    (registerFile envRegFail sEmpty "/w/a.txt").1 = sEmpty ∧
    (unregisterFile envRegFail sOneA "/w/a.txt").1 = sOneA :=
  ⟨(failed_calls_leave_table envRegFail sEmpty "/w/a.txt").1 rfl,
   (failed_calls_leave_table envRegFail sOneA "/w/a.txt").2 rfl⟩

/-- C6: onModify on a registered path makes no registry call and leaves
the table unchanged; on an unregistered path it is exactly onCreate. -/
theorem updateFile_modify_spec (env : RegEnv) (s : MCPServerState) (p : String) :
    (p ∈ s.registeredFiles → updateFile env s p = (s, none, [])) ∧
    (p ∉ s.registeredFiles → updateFile env s p = registerFile env s p) := by
  constructor
  · intro h
    simp [updateFile, h]
  · intro h
    simp [updateFile, h]

/-- Witness for C6: a registered path is untouched, an unregistered path
goes through registerFile. -/
theorem updateFile_modify_spec_witness :
    updateFile envRegAll sOneA "/w/a.txt" = (sOneA, none, []) ∧
    updateFile envRegAll sEmpty "/w/b.txt" = registerFile envRegAll sEmpty "/w/b.txt" :=
  ⟨(updateFile_modify_spec envRegAll sOneA "/w/a.txt").1 (by decide),
   (updateFile_modify_spec envRegAll sEmpty "/w/b.txt").2 (by decide)⟩

/-- C5: classification of a non-directory raw notification follows the
precedence Create over Write over Remove-or-Rename, and a notification
with none of those bits emits nothing. -/
theorem classify_flag_precedence (env : WatchEnv) (fw : FileWatcher) (name : String)
    (op : Nat) (t : FsNode) (hIg : fw.matcher.ShouldIgnore name = false) :
    (op &&& fsnotifyCreate ≠ 0 →
      (handleFsEvent env fw name op false t).2.1 = [FileEvent.mk name EventCreate]) ∧
    (op &&& fsnotifyCreate = 0 → op &&& fsnotifyWrite ≠ 0 →
      (handleFsEvent env fw name op false t).2.1 = [FileEvent.mk name EventModify]) ∧
    (op &&& fsnotifyCreate = 0 → op &&& fsnotifyWrite = 0 →
      op &&& (fsnotifyRemove ||| fsnotifyRename) ≠ 0 →
      (handleFsEvent env fw name op false t).2.1 = [FileEvent.mk name EventDelete]) ∧
    (op &&& fsnotifyCreate = 0 → op &&& fsnotifyWrite = 0 →
      op &&& (fsnotifyRemove ||| fsnotifyRename) = 0 →
      (handleFsEvent env fw name op false t).2.1 = []) := by
  refine ⟨?_, ?_, ?_, ?_⟩
  · intro h1
    simp [handleFsEvent, hIg, h1]
  · intro h1 h2
    simp [handleFsEvent, hIg, h1, h2]
  · intro h1 h2 h3
    simp [handleFsEvent, hIg, h1, h2, h3]
  · intro h1 h2 h3
    simp [handleFsEvent, hIg, h1, h2, h3]

/-- Witness for C5 at op flags Create plus Write (mask 3): the event is
classified as Create. -/
theorem classify_flag_precedence_witness :
    (handleFsEvent envAllOk fwEmpty "/w/notes.txt" 3 false (FsNode.file "notes.txt")).2.1
      = [FileEvent.mk "/w/notes.txt" EventCreate] :=
  (classify_flag_precedence envAllOk fwEmpty "/w/notes.txt" 3 (FsNode.file "notes.txt")
    (by decide)).1 (by decide)

/-- C9: ShouldIgnore is total: filepath.Base never returns the empty
string, so the base-byte access is in bounds; and when the base does not
begin with a dot and the workspace-relative path cannot be computed,
ShouldIgnore returns false. -/
theorem shouldIgnore_total (m : Matcher) (path : String) (c : Char) :
    goBase path ≠ "" ∧
    ((goBase path).data.head? = some c → c ≠ '.' →
      goRel m.workspacePath path = none → m.ShouldIgnore path = false) := by
  refine ⟨goBase_ne_empty path, ?_⟩
  intro h1 h2 h3
  simp [Matcher.ShouldIgnore, h1, h2, h3]

/-- Witness for C9 at the relative path a under workspace /w, where Rel
fails because the workspace is absolute and the path is not. -/
theorem shouldIgnore_total_witness :
    goBase "a" ≠ "" ∧ matcherW.ShouldIgnore "a" = false :=
  ⟨(shouldIgnore_total matcherW "a" 'a').1,
   (shouldIgnore_total matcherW "a" 'a').2 (by decide) (by decide) (by decide)⟩

/-! ### Walk lemmas (mutual structural induction over the tree) -/

mutual

/-- The post-create sub-walk never changes the matcher. -/
theorem subWalkNode_matcher : ∀ (env : WatchEnv) (fw : FileWatcher) (path : String)
    (node : FsNode), (subWalkNode env fw path node).1.matcher = fw.matcher
  | env, fw, path, FsNode.file n => by simp [subWalkNode]
  | env, fw, path, FsNode.dir n children => by
    by_cases hIg : fw.matcher.ShouldIgnoreDir path
    · simp [subWalkNode, hIg]
    · simp only [subWalkNode, hIg, Bool.false_eq_true, if_false]
      rw [subWalkForest_matcher, startWatching_matcher]

/-- Sibling version of subWalkNode_matcher. -/
theorem subWalkForest_matcher : ∀ (env : WatchEnv) (fw : FileWatcher) (parent : String)
    (forest : FsForest), (subWalkForest env fw parent forest).1.matcher = fw.matcher
  | env, fw, parent, FsForest.nil => by simp [subWalkForest]
  | env, fw, parent, FsForest.cons child rest => by
    simp only [subWalkForest]
    rw [subWalkForest_matcher, subWalkNode_matcher]

end

mutual

/-- Every addWatch call of the post-create sub-walk is for a directory
that ShouldIgnoreDir lets through. -/
theorem subWalkNode_addCalls : ∀ (env : WatchEnv) (fw : FileWatcher) (path : String)
    (node : FsNode) (q : String),
    WatchCall.addWatch q ∈ (subWalkNode env fw path node).2 →
      fw.matcher.ShouldIgnoreDir q = false
  | env, fw, path, FsNode.file n, q => by simp [subWalkNode]
  | env, fw, path, FsNode.dir n children, q => by
    by_cases hIg : fw.matcher.ShouldIgnoreDir path
    · simp [subWalkNode, hIg]
    · simp only [subWalkNode, hIg, Bool.false_eq_true, if_false, List.mem_append]
      intro hmem
      rcases hmem with h | h
      · have hq := startWatching_callsOwn env fw path q h
        subst hq
        exact Bool.not_eq_true _ ▸ (by simpa using hIg)
      · have hrec := subWalkForest_addCalls env (startWatching env fw path).1 path children q h
        rwa [startWatching_matcher] at hrec

/-- Sibling version of subWalkNode_addCalls. -/
theorem subWalkForest_addCalls : ∀ (env : WatchEnv) (fw : FileWatcher) (parent : String)
    (forest : FsForest) (q : String),
    WatchCall.addWatch q ∈ (subWalkForest env fw parent forest).2 →
      fw.matcher.ShouldIgnoreDir q = false
  | env, fw, parent, FsForest.nil, q => by simp [subWalkForest]
  | env, fw, parent, FsForest.cons child rest, q => by
    simp only [subWalkForest, List.mem_append]
    intro hmem
    rcases hmem with h | h
    · exact subWalkNode_addCalls env fw (childPath parent child.name) child q h
    · have hrec := subWalkForest_addCalls env
        (subWalkNode env fw (childPath parent child.name) child).1 parent rest q h
      rwa [subWalkNode_matcher] at hrec

end

mutual

/-- The initial scan never changes the matcher. -/
theorem scanNode_matcher : ∀ (env : WatchEnv) (fw : FileWatcher) (path : String)
    (node : FsNode), (scanNode env fw path node).1.matcher = fw.matcher
  | env, fw, path, FsNode.file n => by simp [scanNode]
  | env, fw, path, FsNode.dir n children => by
    by_cases hIg : fw.matcher.ShouldIgnoreDir path
    · simp [scanNode, hIg]
    · simp only [scanNode, hIg, Bool.false_eq_true, if_false]
      rcases herr : (startWatching env fw path).2.1 with _ | u
      · simp only []
        rw [scanForest_matcher, startWatching_matcher]
      · simp only []
        rw [startWatching_matcher]

/-- Sibling version of scanNode_matcher. -/
theorem scanForest_matcher : ∀ (env : WatchEnv) (fw : FileWatcher) (parent : String)
    (forest : FsForest), (scanForest env fw parent forest).1.matcher = fw.matcher
  | env, fw, parent, FsForest.nil => by simp [scanForest]
  | env, fw, parent, FsForest.cons child rest => by
    simp only [scanForest]
    by_cases hok : (scanNode env fw (childPath parent child.name) child).2.2
    · simp only [hok, if_true]
      rw [scanForest_matcher, scanNode_matcher]
    · simp only [hok, Bool.false_eq_true, if_false]
      rw [scanNode_matcher]

end

mutual

/-- Every addWatch call of the initial scan is for a directory that
ShouldIgnoreDir lets through. -/
theorem scanNode_addCalls : ∀ (env : WatchEnv) (fw : FileWatcher) (path : String)
    (node : FsNode) (q : String),
    WatchCall.addWatch q ∈ (scanNode env fw path node).2.1 →
      fw.matcher.ShouldIgnoreDir q = false
  | env, fw, path, FsNode.file n, q => by simp [scanNode]
  | env, fw, path, FsNode.dir n children, q => by
    by_cases hIg : fw.matcher.ShouldIgnoreDir path
    · simp [scanNode, hIg]
    · simp only [scanNode, hIg, Bool.false_eq_true, if_false]
      rcases herr : (startWatching env fw path).2.1 with _ | u
      · simp only [List.mem_append]
        intro hmem
        rcases hmem with h | h
        · have hq := startWatching_callsOwn env fw path q h
          subst hq
          simpa using hIg
        · have hrec := scanForest_addCalls env (startWatching env fw path).1 path children q h
          rwa [startWatching_matcher] at hrec
      · intro hmem
        have hq := startWatching_callsOwn env fw path q hmem
        subst hq
        simpa using hIg

/-- Sibling version of scanNode_addCalls. -/
theorem scanForest_addCalls : ∀ (env : WatchEnv) (fw : FileWatcher) (parent : String)
    (forest : FsForest) (q : String),
    WatchCall.addWatch q ∈ (scanForest env fw parent forest).2.1 →
      fw.matcher.ShouldIgnoreDir q = false
  | env, fw, parent, FsForest.nil, q => by simp [scanForest]
  | env, fw, parent, FsForest.cons child rest, q => by
    simp only [scanForest]
    by_cases hok : (scanNode env fw (childPath parent child.name) child).2.2
    · simp only [hok, if_true, List.mem_append]
      intro hmem
      rcases hmem with h | h
      · exact scanNode_addCalls env fw (childPath parent child.name) child q h
      · have hrec := scanForest_addCalls env
          (scanNode env fw (childPath parent child.name) child).1 parent rest q h
        rwa [scanNode_matcher] at hrec
    · simp only [hok, Bool.false_eq_true, if_false]
      intro hmem
      exact scanNode_addCalls env fw (childPath parent child.name) child q hmem

end

/-- Wrapper of the sub-walk call lemma for the walk rooted at the
created directory itself. -/
theorem subWalk_addCalls (env : WatchEnv) (fw : FileWatcher) (rootPath : String)
    (node : FsNode) (q : String) :
    WatchCall.addWatch q ∈ (subWalk env fw rootPath node).2 →
      fw.matcher.ShouldIgnoreDir q = false := by
  cases node with
  | file n => simp [subWalk]
  | dir n children => exact subWalkForest_addCalls env fw rootPath children q

/-- Directory notifications never emit FileEvents. -/
theorem handleFsEvent_dir_no_events (env : WatchEnv) (fw : FileWatcher) (name : String)
    (op : Nat) (t : FsNode) :
    (handleFsEvent env fw name op true t).2.1 = [] := by
  unfold handleFsEvent
  split
  · rfl
  · rw [if_pos rfl]
    split
    · cases herr : (startWatching env fw name).2.1 <;> simp [herr]
    · split <;> rfl

/-- Every FileEvent emitted for a non-directory, non-ignored
notification carries the notification path. -/
theorem handleFsEvent_file_path (env : WatchEnv) (fw : FileWatcher) (name : String)
    (op : Nat) (t : FsNode) (hIg : fw.matcher.ShouldIgnore name = false) (ev : FileEvent) :
    ev ∈ (handleFsEvent env fw name op false t).2.1 → ev.Path = name := by
  intro hmem
  unfold handleFsEvent at hmem
  simp only [hIg, Bool.false_eq_true, if_false] at hmem
  split at hmem
  · simp at hmem
    rw [hmem]
  · split at hmem
    · simp at hmem
      rw [hmem]
    · split at hmem
      · simp at hmem
        rw [hmem]
      · simp at hmem

/-- Every FileEvent handleFsEvent emits is for a path ShouldIgnore lets
through: ignored notifications are dropped before classification and
directory notifications emit nothing. -/
theorem handleFsEvent_events_not_ignored (env : WatchEnv) (fw : FileWatcher) (name : String)
    (op : Nat) (isDir : Bool) (t : FsNode) (ev : FileEvent) :
    ev ∈ (handleFsEvent env fw name op isDir t).2.1 →
      fw.matcher.ShouldIgnore ev.Path = false := by
  intro hmem
  by_cases hIg : fw.matcher.ShouldIgnore name
  · simp [handleFsEvent, hIg] at hmem
  · have hIg' : fw.matcher.ShouldIgnore name = false := by simpa using hIg
    cases isDir with
    | true =>
      rw [handleFsEvent_dir_no_events] at hmem
      simp at hmem
    | false =>
      have hp := handleFsEvent_file_path env fw name op t hIg' ev hmem
      rw [hp]
      exact hIg'

/-- Every addWatch call handleFsEvent makes is for the workspace root or
for a path ShouldIgnore lets through: the direct watch is guarded by the
ignore check on the event path and the sub-walk is guarded by
ShouldIgnoreDir. -/
theorem handleFsEvent_addCalls (env : WatchEnv) (fw : FileWatcher) (name : String)
    (op : Nat) (isDir : Bool) (t : FsNode) (q : String) :
    WatchCall.addWatch q ∈ (handleFsEvent env fw name op isDir t).2.2 →
      q = fw.matcher.workspacePath ∨ fw.matcher.ShouldIgnore q = false := by
  intro hmem
  by_cases hIg : fw.matcher.ShouldIgnore name
  · simp [handleFsEvent, hIg] at hmem
  · have hIg' : fw.matcher.ShouldIgnore name = false := by simpa using hIg
    unfold handleFsEvent at hmem
    simp only [hIg', Bool.false_eq_true, if_false] at hmem
    cases isDir with
    | true =>
      simp only [if_true] at hmem
      split at hmem
      · split at hmem
        · have hq := startWatching_callsOwn env fw name q hmem
          subst hq
          exact Or.inr hIg'
        · rcases List.mem_append.mp hmem with h | h
          · have hq := startWatching_callsOwn env fw name q h
            subst hq
            exact Or.inr hIg'
          · have hsub := subWalk_addCalls env (startWatching env fw name).1 name t q h
            rw [startWatching_matcher] at hsub
            exact shouldIgnoreDir_false_elim fw.matcher q hsub
      · split at hmem
        · exact absurd hmem (stopWatching_noAdd fw name q)
        · simp at hmem
    | false =>
      rw [if_neg (by simp : ¬ (false = true))] at hmem
      split at hmem
      · simp at hmem
      · split at hmem
        · simp at hmem
        · split at hmem <;> simp at hmem

/-- C3 (amended): for every path that ShouldIgnore rejects, no FileEvent
is ever emitted for it; and no watch is ever added for it during the
initial scan or the dynamic handling of an event unless the path is the
workspace root itself (the root is exempt from ShouldIgnoreDir, so the
scan watches it even when ShouldIgnore would reject it). -/
theorem ignore_soundness (env : WatchEnv) (fw : FileWatcher) (name : String) (op : Nat)
    (isDir : Bool) (t root : FsNode) (q : String) (ev : FileEvent) :
    (ev ∈ (handleFsEvent env fw name op isDir t).2.1 →
      fw.matcher.ShouldIgnore ev.Path = false) ∧
    (WatchCall.addWatch q ∈ (handleFsEvent env fw name op isDir t).2.2 →
      q = fw.matcher.workspacePath ∨ fw.matcher.ShouldIgnore q = false) ∧
    (WatchCall.addWatch q ∈ (scanWorkspace env fw root).2.1 →
      q = fw.matcher.workspacePath ∨ fw.matcher.ShouldIgnore q = false) :=
  ⟨handleFsEvent_events_not_ignored env fw name op isDir t ev,
   handleFsEvent_addCalls env fw name op isDir t q,
   fun h => shouldIgnoreDir_false_elim fw.matcher q
     (scanNode_addCalls env fw fw.workspacePath root q h)⟩

/-- A matcher and watcher whose workspace root has a dot base name. -/
def matcherDotRoot : Matcher := { workspacePath := "/.w", hasGitIgnore := false, gitignoreMatches := fun _ => false }

/-- The watcher built over the dot-named workspace root. -/
def fwDotRoot : FileWatcher := { workspacePath := "/.w", matcher := matcherDotRoot, watchedDirs := [] }

/-- C3 (counterexample): the workspace root /.w is rejected by
ShouldIgnore because its base name begins with a dot, yet the initial
scan adds a watch for it, so the claim as stated over every path fails. -/
theorem ignore_soundness_counterexample :
    matcherDotRoot.ShouldIgnore "/.w" = true ∧
    WatchCall.addWatch "/.w" ∈ (scanWorkspace envAllOk fwDotRoot (FsNode.dir ".w" FsForest.nil)).2.1 := by
  decide

/-- Witness for the amended C3: a Create notification for /w/notes.txt
emits exactly that event, and its path is accepted by ShouldIgnore. -/
theorem ignore_soundness_witness :
    matcherW.ShouldIgnore "/w/notes.txt" = false :=
  (ignore_soundness envAllOk fwEmpty "/w/notes.txt" 1 false (FsNode.file "notes.txt")
    (FsNode.file "notes.txt") "/w/notes.txt" (FileEvent.mk "/w/notes.txt" EventCreate)).1
    (by decide)

/-- C1 (code bug evaluation): create directory /w/d (the raw create
notification stats it as a directory, so it is watched), then remove it;
the raw remove notification is processed after the removal, when the
path no longer stats as a directory, so the handler takes the
non-directory branch: the entry stays in WatchedDirectorySet and a
Delete FileEvent for the directory path is emitted instead. The round
trip is not the identity on the set. -/
theorem watch_roundtrip_not_identity :
    (handleFsEvent envAllOk
        (handleFsEvent envAllOk fwEmpty "/w/d" fsnotifyCreate true (FsNode.dir "d" FsForest.nil)).1
        "/w/d" fsnotifyRemove false (FsNode.file "d")).1.watchedDirs = ["/w/d"] ∧
    fwEmpty.watchedDirs = [] ∧
    (handleFsEvent envAllOk
        (handleFsEvent envAllOk fwEmpty "/w/d" fsnotifyCreate true (FsNode.dir "d" FsForest.nil)).1
        "/w/d" fsnotifyRemove false (FsNode.file "d")).2.1
      = [FileEvent.mk "/w/d" EventDelete] := by
  decide

/-- The workspace tree /w containing node_modules with a file inside. -/
def nmTree : FsNode :=
  FsNode.dir "w"
    (FsForest.cons (FsNode.dir "node_modules" (FsForest.cons (FsNode.file "lib.js") FsForest.nil))
      FsForest.nil)

/-- C2 (code bug evaluation): the directory whose workspace-relative
form is exactly node_modules is NOT ignored, because the default pattern
carries a trailing slash and the prefix-or-equality test fails on the
bare name; the initial scan therefore adds a watch for it. Paths inside
it do match the prefix, so no FileEvent is emitted for them. -/
theorem node_modules_dir_not_ignored :
    matcherW.ShouldIgnoreDir "/w/node_modules" = false ∧
    WatchCall.addWatch "/w/node_modules" ∈ (scanWorkspace envAllOk fwEmpty nmTree).2.1 ∧
    matcherW.ShouldIgnore "/w/node_modules/lib.js" = true ∧
    (handleFsEvent envAllOk fwEmpty "/w/node_modules/lib.js" fsnotifyCreate false
        (FsNode.file "lib.js")).2.1 = [] := by
  decide

/-- C4 (counterexample): for a path already present in the registered
table, calling onCreate twice makes zero Register calls, not exactly
one. -/
theorem onCreate_twice_counterexample :
    (registerFile envRegAll sOneA "/w/a.txt").2.2 ++
      (registerFile envRegAll (registerFile envRegAll sOneA "/w/a.txt").1 "/w/a.txt").2.2
        = [] ∧
    ([] : List RegCall) ≠ [RegCall.register "/w/a.txt"] := by
  decide

/-- C4 (amended): for a path not in the table whose Register call
succeeds, onCreate twice invokes Register exactly once and leaves the
path registered; for a path in the table whose Deregister call succeeds,
onDelete twice invokes Deregister exactly once, leaves the path
unregistered, and the second call returns a nil error. -/
theorem sync_idempotence (env : RegEnv) (s : MCPServerState) (p : String) :
    (p ∉ s.registeredFiles → env.registerOk p = true →
      (registerFile env s p).2.2 ++
          (registerFile env (registerFile env s p).1 p).2.2 = [RegCall.register p] ∧
      p ∈ (registerFile env (registerFile env s p).1 p).1.registeredFiles) ∧
    (p ∈ s.registeredFiles → env.deregisterOk p = true →
      (unregisterFile env s p).2.2 ++
          (unregisterFile env (unregisterFile env s p).1 p).2.2 = [RegCall.deregister p] ∧
      p ∉ (unregisterFile env (unregisterFile env s p).1 p).1.registeredFiles ∧
      (unregisterFile env (unregisterFile env s p).1 p).2.1 = none) := by
  constructor
  · intro h1 h2
    simp [registerFile, h1, h2]
  · intro h1 h2
    simp [unregisterFile, h1, h2, List.mem_filter]

/-- Witness for the amended C4 at a fresh path and a registered path. -/
theorem sync_idempotence_witness :
    ((registerFile envRegAll sEmpty "/w/n.txt").2.2 ++
        (registerFile envRegAll (registerFile envRegAll sEmpty "/w/n.txt").1 "/w/n.txt").2.2
          = [RegCall.register "/w/n.txt"] ∧
      "/w/n.txt" ∈ (registerFile envRegAll
          (registerFile envRegAll sEmpty "/w/n.txt").1 "/w/n.txt").1.registeredFiles) ∧
    ((unregisterFile envRegAll sOneA "/w/a.txt").2.2 ++
        (unregisterFile envRegAll (unregisterFile envRegAll sOneA "/w/a.txt").1 "/w/a.txt").2.2
          = [RegCall.deregister "/w/a.txt"] ∧
      "/w/a.txt" ∉ (unregisterFile envRegAll
          (unregisterFile envRegAll sOneA "/w/a.txt").1 "/w/a.txt").1.registeredFiles ∧
      (unregisterFile envRegAll (unregisterFile envRegAll sOneA "/w/a.txt").1 "/w/a.txt").2.1
        = none) :=
  ⟨(sync_idempotence envRegAll sEmpty "/w/n.txt").1 (by decide) rfl,
   (sync_idempotence envRegAll sOneA "/w/a.txt").2 (by decide) rfl⟩
